import Mathlib

/-!
Shallow embedding of `run_ml_neb.py` (MLNEB repository): a driver script that
configures an ASE/Quantum-Espresso calculator, optionally relaxes two endpoint
structures with BFGS, and runs a CatLearn ML-NEB pathway search.  Module-level
constants, the calculator configuration, the driver control flow and the
deep-copy discipline are translated from the source; the external library
stages (ASE BFGS, CatLearn MLNEB) are modelled from the spec's contracts.
-/

/-! ## Part 1: module-level configuration constants (run_ml_neb.py lines 16-30) -/

def UNOPTIMIZED_INITIAL : String := "initial.traj"

def UNOPTIMIZED_FINAL : String := "final.traj"

def OPTIMIZE_FMAX : ℚ := 0.1

def OPTIMIZED_INITIAL : String := "initial.traj"

def OPTIMIZED_FINAL : String := "final.traj"

def N_IMAGES : Nat := 5

def NEB_FMAX : ℚ := 0.1

def TRAJECTORY_FILE : String := "mlneb_final.traj"

/-! ## Part 2: Quantum Espresso calculator configuration (lines 36-65) -/

structure QEControl where
  calculation : String
  prefixName : String
  pseudo_dir : String
  outdir : String
  tstress : Bool
  tprnfor : Bool
  deriving DecidableEq, Repr

structure QESystem where
  ecutwfc : ℚ
  ecutrho : ℚ
  occupations : String
  smearing : String
  degauss : ℚ
  nspin : Nat
  deriving DecidableEq, Repr

structure QEElectrons where
  conv_thr : ℚ
  mixing_beta : ℚ
  deriving DecidableEq, Repr

structure QEInputData where
  control : QEControl
  system : QESystem
  electrons : QEElectrons
  deriving DecidableEq, Repr

structure EspressoConfig where
  label : String
  pseudopotentials : List (String × String)
  input_data : QEInputData
  kpts : Nat × Nat × Nat
  command : String
  deriving DecidableEq, Repr

def pseudopotentials : List (String × String) :=
  [("La", "La.pbe-nsp-van.UPF"),
   ("Co", "Co.pbe-nd-rrkjus.UPF"),
   ("O", "O.pbe-rrkjus.UPF"),
   ("C", "C.pbe-rrkjus.UPF"),
   ("H", "H.pbe-rrkjus.UPF")]

def qe_input_data : QEInputData :=
  { control := { calculation := "scf"
               , prefixName := "qe_calc"
               , pseudo_dir := "/root/pseudo/"
               , outdir := "./out/"
               , tstress := true
               , tprnfor := true }
  , system := { ecutwfc := 25
              , ecutrho := 225
              , occupations := "smearing"
              , smearing := "gaussian"
              , degauss := 0.01
              , nspin := 1 }
  , electrons := { conv_thr := 0.0001
                 , mixing_beta := 0.1 } }

def ase_calculator : EspressoConfig :=
  { label := "qe_calc"
  , pseudopotentials := pseudopotentials
  , input_data := qe_input_data
  , kpts := (2, 1, 1)
  , command := "mpirun -np 12 pw.x -in PREFIX.pwi > PREFIX.pwo" }

/-! ## Substring occurrence, used to state what the command string reflects -/

def leadsWith : List Char → List Char → Bool
  | [], _ => true
  | _ :: _, [] => false
  | a :: as, b :: bs => a = b && leadsWith as bs

def occursIn (pat : List Char) : List Char → Bool
  | [] => leadsWith pat []
  | c :: rest => leadsWith pat (c :: rest) || occursIn pat rest

def strOccursIn (pat s : String) : Bool :=
  occursIn pat.toList s.toList



/-! ## Driver control flow (lines 70-135)

The driver's observable behaviour is modelled as a list of events plus an
optional uncaught exception.  The environment records which trajectory files
are readable and whether calculator (oracle) invocations succeed; the external
library calls (`read`, `BFGS.run`, `MLNEB`) raise in exactly those situations,
and a raised exception propagates unless a handler in the script catches it.
-/

inductive Event where
  | printed (msg : String)
  | readStructure (file : String)
  | attachCalc
  | bfgsRunEv (trajFile : String) (fmax : ℚ)
  | mlnebConstructEv (startFile endFile : String) (nImages : Nat) (k : ℚ)
  | mlnebRunEv (fmax : ℚ) (trajFile : String)
  | energyEval
  deriving DecidableEq, Repr

structure RunResult where
  events : List Event
  err : Option String
  deriving DecidableEq, Repr

structure Env where
  readOk : String → Bool
  evalOk : Bool

def read_error (file : String) : String :=
  "FileNotFoundError: " ++ file

def calc_error : String :=
  "CalculationFailed"

def sepLine : String :=
  "".pushn '=' 60

def test_fail_msg (e : String) : String :=
  "!!! 테스트 실패: " ++ e ++ "!!!"

def test_hint_msg : String :=
  ">>> Part 2의 QE 계산기 설정을 다시 확인해 주세요."

/-- `optimize_endpoints` (lines 70-90): relax both endpoint structures with
BFGS; any exception from `read` or `BFGS.run` propagates (no handler). -/
def optimize_endpoints (env : Env) : RunResult :=
  let pre := [Event.printed sepLine,
              Event.printed ">>> Part 3: 초기/최종 구조 최적화를 시작합니다.",
              Event.printed ">>> 1. Initial 구조 최적화를 진행합니다...",
              Event.readStructure UNOPTIMIZED_INITIAL]
  if ¬ env.readOk UNOPTIMIZED_INITIAL then
    ⟨pre, some (read_error UNOPTIMIZED_INITIAL)⟩
  else
    let ev1 := pre ++ [Event.attachCalc,
                       Event.bfgsRunEv OPTIMIZED_INITIAL OPTIMIZE_FMAX]
    if ¬ env.evalOk then ⟨ev1, some calc_error⟩
    else
      let ev2 := ev1 ++ [Event.printed ">>> Initial 구조 최적화 완료!",
                         Event.printed ">>> 2. Final 구조 최적화를 진행합니다...",
                         Event.readStructure UNOPTIMIZED_FINAL]
      if ¬ env.readOk UNOPTIMIZED_FINAL then
        ⟨ev2, some (read_error UNOPTIMIZED_FINAL)⟩
      else
        let ev3 := ev2 ++ [Event.attachCalc,
                           Event.bfgsRunEv OPTIMIZED_FINAL OPTIMIZE_FMAX]
        if ¬ env.evalOk then ⟨ev3, some calc_error⟩
        else ⟨ev3 ++ [Event.printed ">>> Final 구조 최적화 완료!",
                      Event.printed sepLine], none⟩

/-- `run_main_mlneb` (lines 96-108): construct `MLNEB` (which reads both
endpoint files) and run it; any exception propagates (no handler). -/
def run_main_mlneb (env : Env) : RunResult :=
  let pre := [Event.printed sepLine,
              Event.printed ">>> Part 4: ML-NEB 계산을 시작합니다.",
              Event.readStructure OPTIMIZED_INITIAL]
  if ¬ env.readOk OPTIMIZED_INITIAL then
    ⟨pre, some (read_error OPTIMIZED_INITIAL)⟩
  else
    let ev1 := pre ++ [Event.readStructure OPTIMIZED_FINAL]
    if ¬ env.readOk OPTIMIZED_FINAL then
      ⟨ev1, some (read_error OPTIMIZED_FINAL)⟩
    else
      let ev2 := ev1 ++ [Event.attachCalc,
                         Event.mlnebConstructEv OPTIMIZED_INITIAL OPTIMIZED_FINAL N_IMAGES 0.1,
                         Event.mlnebRunEv NEB_FMAX TRAJECTORY_FILE]
      if ¬ env.evalOk then ⟨ev2, some calc_error⟩
      else ⟨ev2 ++ [Event.printed ">>> ML-NEB 계산이 성공적으로 완료되었습니다!"], none⟩

/-- `run_single_point_test` (lines 113-123): single-point energy evaluation
on the unoptimized initial structure, wrapped in `try/except Exception`. -/
def run_single_point_test (env : Env) : RunResult :=
  let pre := [Event.printed ">>> 단일 이미지 SCF 테스트를 시작합니다 (대상: UNOPTIMIZED_INITIAL)...",
              Event.readStructure UNOPTIMIZED_INITIAL]
  if ¬ env.readOk UNOPTIMIZED_INITIAL then
    ⟨pre ++ [Event.printed (test_fail_msg (read_error UNOPTIMIZED_INITIAL)),
             Event.printed test_hint_msg], none⟩
  else
    let ev1 := pre ++ [Event.attachCalc, Event.energyEval]
    if ¬ env.evalOk then
      ⟨ev1 ++ [Event.printed (test_fail_msg calc_error),
               Event.printed test_hint_msg], none⟩
    else ⟨ev1 ++ [Event.printed ">>> 테스트 성공!"], none⟩

/-- Python's `str.lower()` on the ASCII range, as used on `sys.argv[1]`. -/
def charLower (c : Char) : Char :=
  if 'A' ≤ c ∧ c ≤ 'Z' then Char.ofNat (c.toNat + 32) else c

def strLower (s : String) : String :=
  ⟨s.data.map charLower⟩

/-- `__main__` (lines 128-135): dispatch on `sys.argv`; the call to
`optimize_endpoints()` is commented out in the source, and no try/except
surrounds either branch. -/
def mainDriver (argv : List String) (env : Env) : RunResult :=
  if 1 < argv.length ∧ strLower (argv.getD 1 "") = "test" then
    run_single_point_test env
  else
    run_main_mlneb env

def isBfgsEv : Event → Bool
  | Event.bfgsRunEv _ _ => true
  | _ => false

def isMlnebEv : Event → Bool
  | Event.mlnebConstructEv _ _ _ _ => true
  | Event.mlnebRunEv _ _ => true
  | _ => false

def countEnergyEvals (r : RunResult) : Nat :=
  r.events.count Event.energyEval

def envAllOk : Env :=
  ⟨fun _ => true, true⟩

def envNoFiles : Env :=
  ⟨fun _ => false, true⟩


/-! ## Deep-copy discipline of the calculator configuration

Python's object aliasing is modelled by a heap of calculator configurations
indexed by address.  `copy.deepcopy(ase_calculator)` allocates a fresh cell
holding the value at the source address; an in-place mutation rewrites one
cell.  Every consumer in the script (both endpoint optimizations, the MLNEB
run, and the single-point test) calls `copy.deepcopy(ase_calculator)`. -/

instance : Inhabited EspressoConfig :=
  ⟨ase_calculator⟩

structure CalcHeap where
  cells : List EspressoConfig
  deriving Repr

def readCalc (h : CalcHeap) (i : Nat) : EspressoConfig :=
  h.cells.getD i default

def deepcopyCalc (h : CalcHeap) (src : Nat) : CalcHeap × Nat :=
  (⟨h.cells ++ [readCalc h src]⟩, h.cells.length)

def mutateCalc (h : CalcHeap) (i : Nat) (f : EspressoConfig → EspressoConfig) : CalcHeap :=
  ⟨h.cells.set i (f (readCalc h i))⟩

/-- The module-level heap: `ase_calculator` lives at address 0. -/
def baseHeap : CalcHeap :=
  ⟨[ase_calculator]⟩

def baseAddr : Nat :=
  0

/-- The four `copy.deepcopy(ase_calculator)` calls of the script, in program
order (lines 78, 86, 103, 118), each returning a fresh address. -/
def pipelineAlloc : CalcHeap × Nat × Nat × Nat × Nat :=
  let (h1, aInit) := deepcopyCalc baseHeap baseAddr
  let (h2, aFinal) := deepcopyCalc h1 baseAddr
  let (h3, aNeb) := deepcopyCalc h2 baseAddr
  let (h4, aTest) := deepcopyCalc h3 baseAddr
  (h4, aInit, aFinal, aNeb, aTest)


/-! ## Structures, forces, and the endpoint optimizer

The BFGS optimizer lives in ASE, outside this repository; it is modelled from
the spec's contract (section 4.2): iterative descent querying the oracle each
step, writing each step's structure to the trajectory, terminating exactly
when the maximum per-atom force norm drops to the threshold, with no step cap
imposed by the script. -/

structure Structure where
  positions : List (ℚ × ℚ × ℚ)
  deriving DecidableEq, Repr

/-- Per-atom force norm (max-abs-component norm on ℚ). -/
def normAbs (f : ℚ × ℚ × ℚ) : ℚ :=
  max |f.1| (max |f.2.1| |f.2.2|)

/-- Maximum per-atom force norm over a structure's force list. -/
def maxAtomForce (fs : List (ℚ × ℚ × ℚ)) : ℚ :=
  (fs.map normAbs).foldr max 0

structure OptState where
  atoms : Structure
  traj : List Structure
  deriving DecidableEq, Repr

/-- Modelled from the spec: ASE's `BFGS(...).run(fmax=...)` loop (the library
code is external to the repository).  `step` is the quasi-Newton position
update, `forces` the oracle's force evaluation; each iteration queries the
oracle, and each position update is appended to the trajectory.  Fuel makes
the loop total; the script itself imposes no step cap, which the theorems
express by quantifying over all fuel values. -/
def bfgsLoop (step : Structure → Structure) (forces : Structure → List (ℚ × ℚ × ℚ))
    (fmax : ℚ) : Nat → OptState → Option OptState
  | 0, _ => none
  | fuel + 1, st =>
    if maxAtomForce (forces st.atoms) ≤ fmax then some st
    else
      let a := step st.atoms
      bfgsLoop step forces fmax fuel ⟨a, st.traj ++ [a]⟩

def bfgsRun (step : Structure → Structure) (forces : Structure → List (ℚ × ℚ × ℚ))
    (fmax : ℚ) (fuel : Nat) (a : Structure) : Option OptState :=
  bfgsLoop step forces fmax fuel ⟨a, [a]⟩

/-- The structures visited by the descent through iterate `n`. -/
def visitedList (step : Structure → Structure) (a : Structure) (n : Nat) : List Structure :=
  (List.range (n + 1)).map (fun i => step^[i] a)

/-! ## The ML-NEB pathway solver

CatLearn's `MLNEB` is external to the repository; it is modelled from the
spec's contract (section 4.3): interpolate `nImages` intermediate structures
between the fixed endpoints, then iterate the interior image positions under
the (surrogate-assisted) NEB force until the maximum force across all images
drops to the threshold. -/

def lerpQ (p q t : ℚ) : ℚ :=
  p + t * (q - p)

def lerpPos (p q : ℚ × ℚ × ℚ) (t : ℚ) : ℚ × ℚ × ℚ :=
  (lerpQ p.1 q.1 t, lerpQ p.2.1 q.2.1 t, lerpQ p.2.2 q.2.2 t)

/-- Modelled from the spec: linear interpolation of `n` intermediate images
between the two endpoints. -/
def interpolateImages (s e : Structure) (n : Nat) : List Structure :=
  (List.range n).map (fun (i : Nat) =>
    ⟨List.zipWith (fun p q => lerpPos p q (((i : ℚ) + 1) / ((n : ℚ) + 1))) s.positions e.positions⟩)

structure MLNEBState where
  n_images : Nat
  k : ℚ
  images : List Structure
  deriving DecidableEq, Repr

/-- Modelled from the spec: `MLNEB(start=..., end=..., n_images=..., k=...)`
builds the initial band: both endpoints plus `n` interpolated images. -/
def mlnebInit (s e : Structure) (n : Nat) (k : ℚ) : MLNEBState :=
  ⟨n, k, s :: (interpolateImages s e n ++ [e])⟩

def movePos (γ : ℚ) (f : ℚ × ℚ × ℚ) (p : ℚ × ℚ × ℚ) : ℚ × ℚ × ℚ :=
  (p.1 + γ * f.1, p.2.1 + γ * f.2.1, p.2.2 + γ * f.2.2)

def moveImage (forces : Structure → List (ℚ × ℚ × ℚ)) (γ : ℚ) (img : Structure) : Structure :=
  ⟨List.zipWith (movePos γ) (forces img) img.positions⟩

/-- Apply `f` to every element except the last one. -/
def mapExceptLast (f : Structure → Structure) : List Structure → List Structure
  | [] => []
  | [x] => [x]
  | x :: y :: rest => f x :: mapExceptLast f (y :: rest)

/-- Modelled from the spec: one refinement sweep of the band; the endpoints
stay fixed, the interior images move under the NEB force (the library's
surrogate-assisted update is abstracted as a displacement along the evaluated
forces, scaled by the spring constant). -/
def mlnebStep (forces : Structure → List (ℚ × ℚ × ℚ)) (st : MLNEBState) : MLNEBState :=
  { st with images :=
      match st.images with
      | [] => []
      | first :: rest => first :: mapExceptLast (moveImage forces st.k) rest }

def pathMaxForce (forces : Structure → List (ℚ × ℚ × ℚ)) (st : MLNEBState) : ℚ :=
  (st.images.map (fun img => maxAtomForce (forces img))).foldr max 0

/-- Modelled from the spec: `mlneb.run(fmax=...)` iterates band sweeps until
the maximum force across all images is at most `fmax`. -/
def mlnebRunLoop (forces : Structure → List (ℚ × ℚ × ℚ)) (fmax : ℚ) :
    Nat → MLNEBState → Option MLNEBState
  | 0, _ => none
  | fuel + 1, st =>
    if pathMaxForce forces st ≤ fmax then some st
    else mlnebRunLoop forces fmax fuel (mlnebStep forces st)

def eventFmax : Event → Option ℚ
  | Event.bfgsRunEv _ f => some f
  | Event.mlnebRunEv f _ => some f
  | _ => none

/-! ## Supporting lemmas -/

theorem mapExceptLast_length (f : Structure → Structure) :
    ∀ l : List Structure, (mapExceptLast f l).length = l.length
  | [] => rfl
  | [_] => rfl
  | x :: y :: rest => by
    simp only [mapExceptLast, List.length_cons]
    exact congrArg Nat.succ (mapExceptLast_length f (y :: rest))

theorem mlnebStep_n_images (forces : Structure → List (ℚ × ℚ × ℚ)) (st : MLNEBState) :
    (mlnebStep forces st).n_images = st.n_images :=
  rfl

theorem mlnebStep_k (forces : Structure → List (ℚ × ℚ × ℚ)) (st : MLNEBState) :
    (mlnebStep forces st).k = st.k :=
  rfl

theorem mlnebStep_images_length (forces : Structure → List (ℚ × ℚ × ℚ)) (st : MLNEBState) :
    (mlnebStep forces st).images.length = st.images.length := by
  cases h : st.images with
  | nil => simp [mlnebStep, h]
  | cons a rest => simp [mlnebStep, h, mapExceptLast_length]

theorem mlnebRunLoop_preserves (forces : Structure → List (ℚ × ℚ × ℚ)) (fmax : ℚ) :
    ∀ (fuel : Nat) (st st' : MLNEBState), mlnebRunLoop forces fmax fuel st = some st' →
      st'.n_images = st.n_images ∧ st'.k = st.k ∧ st'.images.length = st.images.length
  | 0, st, st', h => by simp [mlnebRunLoop] at h
  | fuel + 1, st, st', h => by
    by_cases hc : pathMaxForce forces st ≤ fmax
    · simp only [mlnebRunLoop, if_pos hc, Option.some.injEq] at h
      subst h
      exact ⟨rfl, rfl, rfl⟩
    · simp only [mlnebRunLoop, if_neg hc] at h
      obtain ⟨h1, h2, h3⟩ := mlnebRunLoop_preserves forces fmax fuel _ st' h
      exact ⟨h1.trans (mlnebStep_n_images forces st),
             h2.trans (mlnebStep_k forces st),
             h3.trans (mlnebStep_images_length forces st)⟩

theorem interpolateImages_length (s e : Structure) (n : Nat) :
    (interpolateImages s e n).length = n := by
  unfold interpolateImages
  rw [List.length_map, List.length_range]

theorem mlnebInit_images_length (s e : Structure) (n : Nat) (k : ℚ) :
    (mlnebInit s e n k).images.length = n + 2 := by
  simp [mlnebInit, interpolateImages_length]

theorem visitedList_zero (step : Structure → Structure) (a : Structure) :
    visitedList step a 0 = [a] := by
  simp [visitedList]

theorem visitedList_succ (step : Structure → Structure) (a : Structure) (n : Nat) :
    visitedList step a (n + 1) = visitedList step a n ++ [step^[n + 1] a] := by
  simp [visitedList, List.range_succ]

theorem bfgsLoop_some_spec (step : Structure → Structure)
    (forces : Structure → List (ℚ × ℚ × ℚ)) (fmax : ℚ) (a : Structure) :
    ∀ (fuel k : Nat) (st' : OptState),
      bfgsLoop step forces fmax fuel ⟨step^[k] a, visitedList step a k⟩ = some st' →
      ∃ n, k ≤ n ∧ n < k + fuel ∧
        st' = ⟨step^[n] a, visitedList step a n⟩ ∧
        maxAtomForce (forces (step^[n] a)) ≤ fmax ∧
        ∀ m, k ≤ m → m < n → fmax < maxAtomForce (forces (step^[m] a))
  | 0, k, st', h => by simp [bfgsLoop] at h
  | fuel + 1, k, st', h => by
    by_cases hc : maxAtomForce (forces (step^[k] a)) ≤ fmax
    · simp only [bfgsLoop, if_pos hc, Option.some.injEq] at h
      exact ⟨k, le_refl k, by omega, h.symm, hc, fun m hm1 hm2 => absurd (lt_of_le_of_lt hm1 hm2) (lt_irrefl k)⟩
    · simp only [bfgsLoop, if_neg hc] at h
      have hstate : (⟨step (step^[k] a), visitedList step a k ++ [step (step^[k] a)]⟩ : OptState) =
          ⟨step^[k + 1] a, visitedList step a (k + 1)⟩ := by
        rw [← Function.iterate_succ_apply' step k a, visitedList_succ]
      rw [hstate] at h
      obtain ⟨n, h1, h2, h3, h4, h5⟩ := bfgsLoop_some_spec step forces fmax a fuel (k + 1) st' h
      refine ⟨n, by omega, by omega, h3, h4, fun m hm1 hm2 => ?_⟩
      rcases Nat.eq_or_lt_of_le hm1 with hm | hm
      · subst hm
        exact lt_of_not_le hc
      · exact h5 m hm hm2

theorem bfgsLoop_none_spec (step : Structure → Structure)
    (forces : Structure → List (ℚ × ℚ × ℚ)) (fmax : ℚ) (a : Structure) :
    ∀ (fuel k : Nat),
      bfgsLoop step forces fmax fuel ⟨step^[k] a, visitedList step a k⟩ = none →
      ∀ i, k ≤ i → i < k + fuel → fmax < maxAtomForce (forces (step^[i] a))
  | 0, k, _, i, hi1, hi2 => by omega
  | fuel + 1, k, h, i, hi1, hi2 => by
    by_cases hc : maxAtomForce (forces (step^[k] a)) ≤ fmax
    · simp only [bfgsLoop, if_pos hc] at h
      exact Option.noConfusion h
    · simp only [bfgsLoop, if_neg hc] at h
      have hstate : (⟨step (step^[k] a), visitedList step a k ++ [step (step^[k] a)]⟩ : OptState) =
          ⟨step^[k + 1] a, visitedList step a (k + 1)⟩ := by
        rw [← Function.iterate_succ_apply' step k a, visitedList_succ]
      rw [hstate] at h
      rcases Nat.eq_or_lt_of_le hi1 with hm | hm
      · subst hm
        exact lt_of_not_le hc
      · exact bfgsLoop_none_spec step forces fmax a fuel (k + 1) h i hm (by omega)

theorem bfgsLoop_converges (step : Structure → Structure)
    (forces : Structure → List (ℚ × ℚ × ℚ)) (fmax : ℚ) (a : Structure) :
    ∀ (fuel k n : Nat), k ≤ n → n < k + fuel →
      maxAtomForce (forces (step^[n] a)) ≤ fmax →
      (∀ m, k ≤ m → m < n → fmax < maxAtomForce (forces (step^[m] a))) →
      bfgsLoop step forces fmax fuel ⟨step^[k] a, visitedList step a k⟩ =
        some ⟨step^[n] a, visitedList step a n⟩
  | 0, k, n, hkn, hn, _, _ => by omega
  | fuel + 1, k, n, hkn, hn, hconv, hmin => by
    rcases Nat.eq_or_lt_of_le hkn with hm | hm
    · subst hm
      simp only [bfgsLoop, if_pos hconv]
    · have hc : ¬ maxAtomForce (forces (step^[k] a)) ≤ fmax :=
        not_le_of_lt (hmin k (le_refl k) hm)
      simp only [bfgsLoop, if_neg hc]
      have hstate : (⟨step (step^[k] a), visitedList step a k ++ [step (step^[k] a)]⟩ : OptState) =
          ⟨step^[k + 1] a, visitedList step a (k + 1)⟩ := by
        rw [← Function.iterate_succ_apply' step k a, visitedList_succ]
      rw [hstate]
      exact bfgsLoop_converges step forces fmax a fuel (k + 1) n hm (by omega) hconv
        (fun m hm1 hm2 => hmin m (by omega) hm2)

theorem bfgsRun_eq_loop (step : Structure → Structure)
    (forces : Structure → List (ℚ × ℚ × ℚ)) (fmax : ℚ) (fuel : Nat) (a : Structure) :
    bfgsRun step forces fmax fuel a =
      bfgsLoop step forces fmax fuel ⟨step^[0] a, visitedList step a 0⟩ := by
  rw [visitedList_zero]
  rfl

/-! ## Claim theorems -/

/-- C6 counterexample: the configured pseudopotential directory string never
occurs in the execution command string passed to the quantum-chemistry
backend, so the command does not reflect the pseudopotential directory. -/
theorem c6_counterexample :
    strOccursIn ase_calculator.input_data.control.pseudo_dir ase_calculator.command = false := by
  decide

/-- C6 (amended): the execution command string is a fixed, deterministic part
of the Configuration and reflects the configured core count (`-np 12`); the
configured pseudopotential directory lives in the input-data section of the
Configuration, not in the command string. -/
theorem c6_command_deterministic :
    ase_calculator.command = "mpirun -np 12 pw.x -in PREFIX.pwi > PREFIX.pwo"
    ∧ strOccursIn "-np 12" ase_calculator.command = true
    ∧ ase_calculator.input_data.control.pseudo_dir = "/root/pseudo/"
    ∧ strOccursIn "/root/pseudo/" ase_calculator.command = false :=
  ⟨rfl, by decide, rfl, by decide⟩

/-- C4: every stage's `copy.deepcopy(ase_calculator)` yields a fresh heap
cell whose value starts equal to the base configuration, the five addresses
(base plus the four stage copies) are pairwise distinct, and mutating the
cell at one address never changes the value read at any other address. -/
theorem c4_deepcopy_isolation :
    (∀ (h : CalcHeap) (i j : Nat) (f : EspressoConfig → EspressoConfig),
        i ≠ j → readCalc (mutateCalc h i f) j = readCalc h j)
    ∧ [baseAddr, pipelineAlloc.2.1, pipelineAlloc.2.2.1, pipelineAlloc.2.2.2.1,
       pipelineAlloc.2.2.2.2].Nodup
    ∧ readCalc pipelineAlloc.1 baseAddr = ase_calculator
    ∧ readCalc pipelineAlloc.1 pipelineAlloc.2.1 = ase_calculator
    ∧ readCalc pipelineAlloc.1 pipelineAlloc.2.2.1 = ase_calculator
    ∧ readCalc pipelineAlloc.1 pipelineAlloc.2.2.2.1 = ase_calculator
    ∧ readCalc pipelineAlloc.1 pipelineAlloc.2.2.2.2 = ase_calculator := by
  refine ⟨?_, by decide, rfl, rfl, rfl, rfl, rfl⟩
  intro h i j f hij
  unfold readCalc mutateCalc
  simp only [List.getD_eq_getElem?_getD]
  rw [List.getElem?_set_ne hij]

/-- C4 witness: mutate the ML-NEB stage's copy (address 3) to a different
command string; the base configuration at address 0 is unchanged. -/
theorem c4_witness :
    readCalc (mutateCalc pipelineAlloc.1 pipelineAlloc.2.2.2.1
      (fun c => { c with command := "mpirun -np 48 pw.x" })) baseAddr = ase_calculator := by
  have h := c4_deepcopy_isolation.1 pipelineAlloc.1 pipelineAlloc.2.2.2.1 baseAddr
    (fun c => { c with command := "mpirun -np 48 pw.x" }) (by decide)
  rw [h]
  rfl

/-- C1 counterexample: running the no-argument pipeline with the input
trajectory file missing leaves the raised exception uncaught: the driver's
result carries an error to the process boundary, contradicting the claimed
top-level catch-all. -/
theorem c1_counterexample :
    (mainDriver ["run_ml_neb.py"] envNoFiles).err ≠ none := by
  decide

/-- C1 (amended): only test mode has a catch-all handler — for every
environment a `test` invocation returns normally — while the no-argument
pipeline has no top-level handler: it returns normally exactly when reading
both endpoint files and every calculator invocation succeed, and otherwise
the stage exception propagates unhandled to the process boundary. -/
theorem c1_pipeline_exceptions_unhandled :
    ∀ (argv : List String) (env : Env),
      ((1 < argv.length ∧ strLower (argv.getD 1 "") = "test") →
        (mainDriver argv env).err = none)
      ∧ (¬(1 < argv.length ∧ strLower (argv.getD 1 "") = "test") →
          ((mainDriver argv env).err = none ↔
            (env.readOk OPTIMIZED_INITIAL ∧ env.readOk OPTIMIZED_FINAL ∧ env.evalOk))) := by
  intro argv env
  constructor
  · intro ht
    rw [mainDriver, if_pos ht]
    by_cases h1 : env.readOk UNOPTIMIZED_INITIAL <;> by_cases h2 : env.evalOk <;>
      simp [run_single_point_test, h1, h2]
  · intro ht
    rw [mainDriver, if_neg ht]
    by_cases h1 : env.readOk OPTIMIZED_INITIAL <;> by_cases h2 : env.readOk OPTIMIZED_FINAL <;>
      by_cases h3 : env.evalOk <;> simp [run_main_mlneb, h1, h2, h3]

/-- C1 witness: a `test` invocation with the input file missing still
returns normally. -/
theorem c1_witness :
    (mainDriver ["run_ml_neb.py", "test"] envNoFiles).err = none :=
  (c1_pipeline_exceptions_unhandled ["run_ml_neb.py", "test"] envNoFiles).1 (by decide)

/-- C2 counterexample: in a fully succeeding no-argument run the driver
never issues a BFGS endpoint-optimization run, contradicting the claim that
the Endpoint Optimizer is called on both endpoints. -/
theorem c2_counterexample :
    (mainDriver ["run_ml_neb.py"] envAllOk).events.any isBfgsEv = false := by
  decide

/-- C2 (amended): with no command-line arguments the driver runs only the
Pathway Solver — the `optimize_endpoints()` call is commented out, so no
BFGS run is ever issued — and when the endpoint files are readable and the
calculator succeeds it constructs and runs MLNEB. -/
theorem c2_no_arg_runs_solver_only :
    ∀ (argv : List String) (env : Env),
      ¬(1 < argv.length ∧ strLower (argv.getD 1 "") = "test") →
      mainDriver argv env = run_main_mlneb env
      ∧ (mainDriver argv env).events.any isBfgsEv = false
      ∧ (env.readOk OPTIMIZED_INITIAL → env.readOk OPTIMIZED_FINAL → env.evalOk →
          Event.mlnebConstructEv OPTIMIZED_INITIAL OPTIMIZED_FINAL N_IMAGES 0.1 ∈
            (mainDriver argv env).events
          ∧ Event.mlnebRunEv NEB_FMAX TRAJECTORY_FILE ∈ (mainDriver argv env).events) := by
  intro argv env ht
  rw [mainDriver, if_neg ht]
  refine ⟨rfl, ?_, ?_⟩
  · by_cases h1 : env.readOk OPTIMIZED_INITIAL <;> by_cases h2 : env.readOk OPTIMIZED_FINAL <;>
      by_cases h3 : env.evalOk <;> simp [run_main_mlneb, h1, h2, h3, isBfgsEv]
  · intro h1 h2 h3
    simp [run_main_mlneb, h1, h2, h3]

/-- C2 witness: a concrete no-argument all-succeeding run dispatches to the
solver and issues the MLNEB run. -/
theorem c2_witness :
    mainDriver ["run_ml_neb.py"] envAllOk = run_main_mlneb envAllOk
    ∧ Event.mlnebRunEv NEB_FMAX TRAJECTORY_FILE ∈ (mainDriver ["run_ml_neb.py"] envAllOk).events := by
  have h := c2_no_arg_runs_solver_only ["run_ml_neb.py"] envAllOk (by decide)
  exact ⟨h.1, (h.2.2 (by decide) (by decide) (by decide)).2⟩

/-- C3: when the first argument lowercases to `test`, the driver runs only
the single-point test: it never issues a BFGS optimizer run nor any MLNEB
construction or run, it performs at most one energy evaluation, and exactly
one when the input structure file is readable. -/
theorem c3_test_mode_single_evaluation :
    ∀ (argv : List String) (env : Env),
      (1 < argv.length ∧ strLower (argv.getD 1 "") = "test") →
      mainDriver argv env = run_single_point_test env
      ∧ (mainDriver argv env).events.any isBfgsEv = false
      ∧ (mainDriver argv env).events.any isMlnebEv = false
      ∧ countEnergyEvals (mainDriver argv env) ≤ 1
      ∧ (env.readOk UNOPTIMIZED_INITIAL → countEnergyEvals (mainDriver argv env) = 1) := by
  intro argv env ht
  rw [mainDriver, if_pos ht]
  refine ⟨rfl, ?_, ?_, ?_, ?_⟩ <;>
    [skip; skip; skip; intro h1] <;>
    by_cases h1 : env.readOk UNOPTIMIZED_INITIAL <;> by_cases h2 : env.evalOk <;>
      simp_all [run_single_point_test, countEnergyEvals, isBfgsEv, isMlnebEv]

/-- C3 witness: a concrete test-mode run with readable input performs
exactly one energy evaluation. -/
theorem c3_witness :
    countEnergyEvals (mainDriver ["run_ml_neb.py", "Test"] envAllOk) = 1 :=
  (c3_test_mode_single_evaluation ["run_ml_neb.py", "Test"] envAllOk (by decide)).2.2.2.2
    (by decide)

/-- C9: dispatch on the first command-line argument is case-insensitive and
tolerant — any first argument lowercasing to `test` (extra arguments
allowed) selects the single-point test, every other argument list (missing,
unrecognized, or extra arguments) selects the full pipeline, and every
invocation dispatches to one of the two stages (no usage error exists). -/
theorem c9_arg_dispatch :
    ∀ (a b : String) (rest : List String) (env : Env),
      (strLower b = "test" → mainDriver (a :: b :: rest) env = run_single_point_test env)
      ∧ (strLower b ≠ "test" → mainDriver (a :: b :: rest) env = run_main_mlneb env)
      ∧ mainDriver [a] env = run_main_mlneb env
      ∧ mainDriver [] env = run_main_mlneb env
      ∧ (mainDriver (a :: b :: rest) env = run_single_point_test env ∨
         mainDriver (a :: b :: rest) env = run_main_mlneb env) := by
  intro a b rest env
  have hget : (a :: b :: rest).getD 1 "" = b := rfl
  have hlen : 1 < (a :: b :: rest).length := by simp
  refine ⟨?_, ?_, ?_, ?_, ?_⟩
  · intro hb
    rw [mainDriver, if_pos ⟨hlen, by rw [hget]; exact hb⟩]
  · intro hb
    rw [mainDriver, if_neg]
    intro hcontra
    exact hb (by rw [← hget]; exact hcontra.2)
  · rw [mainDriver, if_neg]
    intro hcontra
    simp at hcontra
  · rw [mainDriver, if_neg]
    intro hcontra
    simp at hcontra
  · by_cases hb : strLower b = "test"
    · exact Or.inl (by rw [mainDriver, if_pos ⟨hlen, by rw [hget]; exact hb⟩])
    · refine Or.inr ?_
      rw [mainDriver, if_neg]
      intro hcontra
      exact hb (by rw [← hget]; exact hcontra.2)

/-- C9 witness: a mixed-case first argument with an extra trailing argument
still selects test mode. -/
theorem c9_witness :
    mainDriver ["run_ml_neb.py", "TeSt", "extra"] envAllOk = run_single_point_test envAllOk :=
  (c9_arg_dispatch "run_ml_neb.py" "TeSt" ["extra"] envAllOk).1 (by decide)

/-- C10: `run_single_point_test` returns normally in every environment,
printing the failure message carrying the exception text plus the fixed
configuration hint whenever reading or evaluation fails; the other two
stage functions have no handler — they return normally exactly when every
sub-operation succeeds, so any sub-failure propagates as an error. -/
theorem c10_test_catch_all :
    ∀ env : Env,
      (run_single_point_test env).err = none
      ∧ (env.readOk UNOPTIMIZED_INITIAL = false →
          Event.printed (test_fail_msg (read_error UNOPTIMIZED_INITIAL)) ∈
            (run_single_point_test env).events
          ∧ Event.printed test_hint_msg ∈ (run_single_point_test env).events)
      ∧ (env.readOk UNOPTIMIZED_INITIAL = true → env.evalOk = false →
          Event.printed (test_fail_msg calc_error) ∈ (run_single_point_test env).events
          ∧ Event.printed test_hint_msg ∈ (run_single_point_test env).events)
      ∧ ((optimize_endpoints env).err = none ↔
          (env.readOk UNOPTIMIZED_INITIAL ∧ env.readOk UNOPTIMIZED_FINAL ∧ env.evalOk))
      ∧ ((run_main_mlneb env).err = none ↔
          (env.readOk OPTIMIZED_INITIAL ∧ env.readOk OPTIMIZED_FINAL ∧ env.evalOk)) := by
  intro env
  refine ⟨?_, ?_, ?_, ?_, ?_⟩
  · by_cases h1 : env.readOk UNOPTIMIZED_INITIAL <;> by_cases h2 : env.evalOk <;>
      simp [run_single_point_test, h1, h2]
  · intro h1
    simp [run_single_point_test, h1]
  · intro h1 h2
    simp [run_single_point_test, h1, h2]
  · by_cases h1 : env.readOk UNOPTIMIZED_INITIAL <;> by_cases h2 : env.readOk UNOPTIMIZED_FINAL <;>
      by_cases h3 : env.evalOk <;> simp [optimize_endpoints, h1, h2, h3]
  · by_cases h1 : env.readOk OPTIMIZED_INITIAL <;> by_cases h2 : env.readOk OPTIMIZED_FINAL <;>
      by_cases h3 : env.evalOk <;> simp [run_main_mlneb, h1, h2, h3]

/-- C10 witness: with the input file missing the test run still returns
normally and prints the configuration hint. -/
theorem c10_witness :
    (run_single_point_test envNoFiles).err = none
    ∧ Event.printed test_hint_msg ∈ (run_single_point_test envNoFiles).events := by
  have h := c10_test_catch_all envNoFiles
  exact ⟨h.1, (h.2.1 (by decide)).2⟩

theorem mlnebRunLoop_succ (forces : Structure → List (ℚ × ℚ × ℚ)) (fmax : ℚ)
    (fuel : Nat) (st : MLNEBState) :
    mlnebRunLoop forces fmax (fuel + 1) st =
      if pathMaxForce forces st ≤ fmax then some st
      else mlnebRunLoop forces fmax fuel (mlnebStep forces st) :=
  rfl

theorem foldr_max_zeros :
    ∀ l : List Structure, ((l.map (fun _ => (0 : ℚ))).foldr max 0) = 0
  | [] => rfl
  | _ :: xs => by
    rw [List.map_cons, List.foldr_cons, foldr_max_zeros xs, max_self]

theorem pathMaxForce_no_forces (st : MLNEBState) :
    pathMaxForce (fun _ => []) st = 0 := by
  unfold pathMaxForce
  have h : (fun img => maxAtomForce ((fun _ => ([] : List (ℚ × ℚ × ℚ))) img)) =
      fun (_ : Structure) => (0 : ℚ) := by
    funext img
    rfl
  rw [h]
  exact foldr_max_zeros st.images

/-- C5 (spec-modelled Pathway Solver): every successful solver run started
from the script's parameters yields a pathway of exactly N_IMAGES + 2 = 7
structures: the two fixed endpoints plus the five intermediate images. -/
theorem c5_pathway_image_count :
    ∀ (s e : Structure) (forces : Structure → List (ℚ × ℚ × ℚ)) (fuel : Nat) (st' : MLNEBState),
      mlnebRunLoop forces NEB_FMAX fuel (mlnebInit s e N_IMAGES 0.1) = some st' →
      st'.images.length = N_IMAGES + 2 ∧ st'.images.length = 7 := by
  intro s e forces fuel st' h
  have hp := (mlnebRunLoop_preserves forces NEB_FMAX fuel _ st' h).2.2
  rw [mlnebInit_images_length] at hp
  exact ⟨hp, by rw [hp]; decide⟩

/-- C5 witness: a deterministic zero-force oracle stub converges at once and
the resulting pathway holds exactly 7 structures. -/
theorem c5_witness :
    ∃ st', mlnebRunLoop (fun _ => []) NEB_FMAX 1 (mlnebInit ⟨[]⟩ ⟨[]⟩ N_IMAGES 0.1) = some st'
      ∧ st'.images.length = 7 := by
  have hrun : mlnebRunLoop (fun _ => []) NEB_FMAX 1 (mlnebInit ⟨[]⟩ ⟨[]⟩ N_IMAGES 0.1) =
      some (mlnebInit ⟨[]⟩ ⟨[]⟩ N_IMAGES 0.1) := by
    rw [show (1 : Nat) = 0 + 1 from rfl, mlnebRunLoop_succ, pathMaxForce_no_forces,
      if_pos (by norm_num [NEB_FMAX])]
  exact ⟨_, hrun, (c5_pathway_image_count ⟨[]⟩ ⟨[]⟩ (fun _ => []) 1 _ hrun).2⟩

/-- C7: the image count and spring constant recorded at solver construction
are unchanged by every solver run; the only force-convergence thresholds any
stage's events ever carry are OPTIMIZE_FMAX and NEB_FMAX, and both are
nonnegative. -/
theorem c7_fixed_parameters_nonneg_thresholds :
    (∀ (forces : Structure → List (ℚ × ℚ × ℚ)) (fmax : ℚ) (fuel : Nat) (st st' : MLNEBState),
        mlnebRunLoop forces fmax fuel st = some st' →
        st'.n_images = st.n_images ∧ st'.k = st.k)
    ∧ (∀ (env : Env) (ev : Event),
        (ev ∈ (optimize_endpoints env).events ∨ ev ∈ (run_main_mlneb env).events ∨
         ev ∈ (run_single_point_test env).events) →
        eventFmax ev = none ∨ eventFmax ev = some OPTIMIZE_FMAX ∨
          eventFmax ev = some NEB_FMAX)
    ∧ 0 ≤ OPTIMIZE_FMAX ∧ 0 ≤ NEB_FMAX := by
  refine ⟨?_, ?_, by norm_num [OPTIMIZE_FMAX], by norm_num [NEB_FMAX]⟩
  · intro forces fmax fuel st st' h
    exact ⟨(mlnebRunLoop_preserves forces fmax fuel st st' h).1,
           (mlnebRunLoop_preserves forces fmax fuel st st' h).2.1⟩
  · intro env ev hm
    rcases hm with hm | hm | hm
    · unfold optimize_endpoints at hm
      split_ifs at hm <;> fin_cases hm <;> simp [eventFmax]
    · unfold run_main_mlneb at hm
      split_ifs at hm <;> fin_cases hm <;> simp [eventFmax]
    · unfold run_single_point_test at hm
      split_ifs at hm <;> fin_cases hm <;> simp [eventFmax]

/-- C7 witness: a concrete converging run keeps n_images = 5 and k = 0.1,
and the BFGS event of a concrete all-succeeding endpoint optimization
carries one of the two configured thresholds. -/
theorem c7_witness :
    (∃ st', mlnebRunLoop (fun _ => []) NEB_FMAX 1
        (mlnebInit ⟨[((0 : ℚ), 0, 0)]⟩ ⟨[((0 : ℚ), 0, 0)]⟩ N_IMAGES 0.1) = some st'
      ∧ st'.n_images = N_IMAGES)
    ∧ (eventFmax (Event.bfgsRunEv OPTIMIZED_INITIAL OPTIMIZE_FMAX) = none ∨
       eventFmax (Event.bfgsRunEv OPTIMIZED_INITIAL OPTIMIZE_FMAX) = some OPTIMIZE_FMAX ∨
       eventFmax (Event.bfgsRunEv OPTIMIZED_INITIAL OPTIMIZE_FMAX) = some NEB_FMAX) := by
  have hrun : mlnebRunLoop (fun _ => []) NEB_FMAX 1
      (mlnebInit ⟨[((0 : ℚ), 0, 0)]⟩ ⟨[((0 : ℚ), 0, 0)]⟩ N_IMAGES 0.1) =
      some (mlnebInit ⟨[((0 : ℚ), 0, 0)]⟩ ⟨[((0 : ℚ), 0, 0)]⟩ N_IMAGES 0.1) := by
    rw [show (1 : Nat) = 0 + 1 from rfl, mlnebRunLoop_succ, pathMaxForce_no_forces,
      if_pos (by norm_num [NEB_FMAX])]
  refine ⟨⟨_, hrun, ?_⟩, ?_⟩
  · exact ((c7_fixed_parameters_nonneg_thresholds.1 (fun _ => []) NEB_FMAX 1 _ _ hrun).1).trans rfl
  · exact c7_fixed_parameters_nonneg_thresholds.2.1 envAllOk
      (Event.bfgsRunEv OPTIMIZED_INITIAL OPTIMIZE_FMAX)
      (Or.inl (by simp [optimize_endpoints, envAllOk]))

/-- C8 (spec-modelled BFGS): a run result exists exactly by convergence — a
returned state is the first iterate whose maximum per-atom force norm is at
most fmax, its trajectory holds every visited structure including the
initial one, a `none` result means no iterate within the fuel bound had yet
converged (so the only termination is convergence: no step cap), and the
script issues the BFGS runs on both endpoints with fmax = OPTIMIZE_FMAX. -/
theorem c8_bfgs_descent :
    (∀ (step : Structure → Structure) (forces : Structure → List (ℚ × ℚ × ℚ))
        (fmax : ℚ) (a : Structure),
      (∀ (fuel : Nat) (st' : OptState), bfgsRun step forces fmax fuel a = some st' →
        ∃ n, n < fuel ∧ st' = ⟨step^[n] a, visitedList step a n⟩ ∧
          maxAtomForce (forces (step^[n] a)) ≤ fmax ∧
          ∀ m, m < n → fmax < maxAtomForce (forces (step^[m] a)))
      ∧ (∀ fuel : Nat, bfgsRun step forces fmax fuel a = none →
          ∀ i, i < fuel → fmax < maxAtomForce (forces (step^[i] a)))
      ∧ (∀ n fuel : Nat, n < fuel → maxAtomForce (forces (step^[n] a)) ≤ fmax →
          (∀ m, m < n → fmax < maxAtomForce (forces (step^[m] a))) →
          bfgsRun step forces fmax fuel a = some ⟨step^[n] a, visitedList step a n⟩))
    ∧ (∀ env : Env, env.readOk UNOPTIMIZED_INITIAL → env.readOk UNOPTIMIZED_FINAL →
        env.evalOk →
        Event.bfgsRunEv OPTIMIZED_INITIAL OPTIMIZE_FMAX ∈ (optimize_endpoints env).events
        ∧ Event.bfgsRunEv OPTIMIZED_FINAL OPTIMIZE_FMAX ∈ (optimize_endpoints env).events) := by
  constructor
  · intro step forces fmax a
    refine ⟨?_, ?_, ?_⟩
    · intro fuel st' h
      rw [bfgsRun_eq_loop] at h
      obtain ⟨n, _, h2, h3, h4, h5⟩ := bfgsLoop_some_spec step forces fmax a fuel 0 st' h
      exact ⟨n, by omega, h3, h4, fun m hm => h5 m (Nat.zero_le m) hm⟩
    · intro fuel h i hi
      rw [bfgsRun_eq_loop] at h
      exact bfgsLoop_none_spec step forces fmax a fuel 0 h i (Nat.zero_le i) (by omega)
    · intro n fuel hn hconv hmin
      rw [bfgsRun_eq_loop]
      exact bfgsLoop_converges step forces fmax a fuel 0 n (Nat.zero_le n) (by omega) hconv
        (fun m _ hm2 => hmin m hm2)
  · intro env h1 h2 h3
    constructor <;> simp [optimize_endpoints, h1, h2, h3]

/-- C8 witness: a zero-force oracle converges at the initial structure, whose
trajectory then holds exactly that structure, and a concrete all-succeeding
endpoint optimization issues the configured BFGS run. -/
theorem c8_witness :
    bfgsRun id (fun _ => [((0 : ℚ), 0, 0)]) 0 1 ⟨[((0 : ℚ), 0, 0)]⟩ =
      some ⟨⟨[((0 : ℚ), 0, 0)]⟩, [⟨[((0 : ℚ), 0, 0)]⟩]⟩
    ∧ Event.bfgsRunEv OPTIMIZED_INITIAL OPTIMIZE_FMAX ∈ (optimize_endpoints envAllOk).events := by
  have hconv : maxAtomForce ((fun _ => [((0 : ℚ), 0, 0)])
      (id^[0] (⟨[((0 : ℚ), 0, 0)]⟩ : Structure))) ≤ 0 := by
    simp [maxAtomForce, normAbs]
  have h := ((c8_bfgs_descent.1 id (fun _ => [((0 : ℚ), 0, 0)]) 0 ⟨[((0 : ℚ), 0, 0)]⟩).2.2) 0 1
    (by omega) hconv (fun m hm => absurd hm (Nat.not_lt_zero m))
  constructor
  · simpa [visitedList_zero] using h
  · exact (c8_bfgs_descent.2 envAllOk (by decide) (by decide) (by decide)).1
